import Mathlib

/-!
Verification development for the Wolf Search Algorithm (WSA) of
NiaPy/algorithms/basic/wsa.py.

The configuration layer (typeParameters validators, setParameters) is
embedded over a small model of Python numeric values, since the
validators dispatch on the runtime type (isinstance(x, float) versus
isinstance(x, int)).

The numeric layer (runIteration, searchWithinVisual, escape,
updateIfBetter) is embedded over an arbitrary linear ordered field,
with the external collaborators (Task, RandomSource, numpy sqrt/exp)
passed in explicitly.  Random draws are modelled as finite streams and
the unbounded rejection-sampling while-loops as fuelled recursions
returning Option: a None result models a run of the loop that did not
terminate within the provided fuel.
-/

namespace WSA

/-- A Python numeric value as seen by the typeParameters validators:
either a value of runtime type int, or one of runtime type float
(float arithmetic is modelled by rationals; the validators only
compare against 0 and 1, where this is exact). -/
inductive PyVal where
  | int (n : ℤ)
  | float (q : ℚ)
deriving DecidableEq

/-- Python isinstance(x, float). -/
def PyVal.isFloat : PyVal → Bool
  | .int _ => false
  | .float _ => true

/-- Python isinstance(x, int). -/
def PyVal.isInt : PyVal → Bool
  | .int _ => true
  | .float _ => false

/-- The numeric value of a Python number (int and float compare by
value in Python). -/
def PyVal.val : PyVal → ℚ
  | .int n => (n : ℚ)
  | .float q => q

/-- Validator for r from WolfSearchAlgorithm.typeParameters:
lambda x: isinstance(x, float) and x > 0. -/
def typeParametersR (x : PyVal) : Bool := x.isFloat && decide (0 < x.val)

/-- Validator for s from WolfSearchAlgorithm.typeParameters:
lambda x: isinstance(x, float) and x > 0. -/
def typeParametersS (x : PyVal) : Bool := x.isFloat && decide (0 < x.val)

/-- Validator for alpha from WolfSearchAlgorithm.typeParameters:
lambda x: isinstance(x, float) and x > 0. -/
def typeParametersAlpha (x : PyVal) : Bool := x.isFloat && decide (0 < x.val)

/-- Validator for pa from WolfSearchAlgorithm.typeParameters:
lambda x: isinstance(x, float) and 0 <= x <= 1. -/
def typeParametersPa (x : PyVal) : Bool :=
  x.isFloat && decide (0 ≤ x.val) && decide (x.val ≤ 1)

/-- Modelled from the spec: the NP validator supplied by the base
class Algorithm.typeParameters, whose source is not under src/; the
spec states that NP accepts positive integers only (rejects 0,
negative, non-integer). -/
def typeParametersNP (x : PyVal) : Bool := x.isInt && decide (0 < x.val)

/-- The parameter record held by a configured WolfSearchAlgorithm
after setParameters: self.NP, self.r, self.s, self.alpha, self.pa. -/
structure WSAParams where
  NP : PyVal
  r : PyVal
  s : PyVal
  alpha : PyVal
  pa : PyVal
deriving DecidableEq

/-- Modelled from the spec: the base class Algorithm.setParameters
(not under src/), which receives NP; per the spec the parameter
surface is validated at configuration time, so an out-of-domain NP is
rejected (modelled as a None result standing for the raised error). -/
def algorithmSetParameters (np : PyVal) : Option PyVal :=
  if typeParametersNP np then some np else none

/-- WolfSearchAlgorithm.setParameters: calls the base class with NP,
then stores r, s, alpha, pa verbatim
(self.r, self.s, self.alpha, self.pa = r, s, alpha, pa);
the body contains no validation of r, s, alpha or pa. -/
def setParameters (np r s alpha pa : PyVal) : Option WSAParams :=
  (algorithmSetParameters np).map fun np0 =>
    { NP := np0, r := r, s := s, alpha := alpha, pa := pa }

/-- The default arguments of setParameters:
NP=10, r=1, s=0.2, alpha=1, pa=0.2.  Note that the defaults for r
and alpha are the plain integer literal 1, not a float literal, while
s and pa are float literals. -/
def setParametersDefault : Option WSAParams :=
  setParameters (.int 10) (.int 1) (.float (1/5)) (.int 1) (.float (1/5))

/-- Modelled from the spec: the RandomSource collaborator.  The two
streams hold the remaining gaussianScalar/gaussianVector draws
(self.randn) and uniform draws (self.rand); a draw from an exhausted
stream models a loop that was given insufficient fuel. -/
structure Rng (α : Type) where
  gauss : List α
  unif : List α
deriving DecidableEq

/-- One gaussian scalar draw: self.randn(). -/
def randn1 {α : Type} : Rng α → Option (α × Rng α)
  | ⟨[], _⟩ => none
  | ⟨g :: gs, us⟩ => some (g, ⟨gs, us⟩)

/-- A gaussian vector draw of n components: self.randn(n). -/
def randnVec {α : Type} (n : ℕ) (rng : Rng α) : Option (List α × Rng α) :=
  if n ≤ rng.gauss.length then some (rng.gauss.take n, ⟨rng.gauss.drop n, rng.unif⟩)
  else none

/-- One uniform draw: self.rand(). -/
def rand1 {α : Type} : Rng α → Option (α × Rng α)
  | ⟨_, []⟩ => none
  | ⟨gs, u :: us⟩ => some (u, ⟨gs, us⟩)

/-- The external numeric library functions used by runIteration
(numpy.sqrt and numpy.exp), passed in explicitly. -/
structure EnvOps (α : Type) where
  sqrt : α → α
  exp : α → α

/-- Modelled from the spec: the Task collaborator (not under src/),
wrapping the black-box objective (evaluate) and per-dimension bounds;
feasibility means the point lies within the configured bounds. -/
structure Task (α : Type) where
  eval : List α → α
  lower : List α
  upper : List α

variable {α : Type} [LinearOrderedField α]

/-- task.bRange[i]: the width upper - lower of dimension i
(Modelled from the spec: boundsRange(dim) -> float, upper minus lower
per dimension). -/
def Task.bRange (task : Task α) (i : ℕ) : α :=
  task.upper.getD i 0 - task.lower.getD i 0

/-- Modelled from the spec: Task.isFeasible(point) — the point has the
task's dimensionality and lies within the configured bounds in every
dimension. -/
def Task.isFeasible (task : Task α) (v : List α) : Bool :=
  v.length == task.lower.length &&
    (List.range v.length).all fun i =>
      decide (task.lower.getD i 0 ≤ v.getD i 0) && decide (v.getD i 0 ≤ task.upper.getD i 0)

/-- Modelled from the spec: feasibility of a single dimension's value,
as used by the per-dimension rejection sampling of the escape move
(the spec: retry until that dimension's perturbed value is
feasible). -/
def Task.dimFeasible (task : Task α) (i : ℕ) (x : α) : Bool :=
  decide (task.lower.getD i 0 ≤ x) && decide (x ≤ task.upper.getD i 0)

/-- The numeric algorithm parameters self.r, self.s, self.alpha,
self.pa as used by runIteration. -/
structure Params (α : Type) where
  r : α
  s : α
  alpha : α
  pa : α

/-- sum((wolf - other) ** 2): the sum of squared coordinate
differences, as built by the distance list comprehension. -/
def sumSqDiff (a b : List α) : α :=
  (List.zipWith (fun x y => (x - y) ^ 2) a b).sum

/-- numpy.argmin on a list: index of the first occurrence of the
minimal element (0 on the empty list, which numpy rejects). -/
def argmin (l : List α) : ℕ :=
  (List.range l.length).foldl (fun b i => if l.getD i 0 < l.getD b 0 then i else b) 0

/-- The accumulated distance of the pack-attraction step:
for i in range(len(bestWolf)): r = sqrt((bestWolf[i] - wolf[i])**2 + r),
folding from the incoming accumulator value r0. -/
def rDistAccum (E : EnvOps α) (bestWolf wolf : List α) (r0 : α) : α :=
  (List.range bestWolf.length).foldl
    (fun acc i => E.sqrt ((bestWolf.getD i 0 - wolf.getD i 0) ^ 2 + acc)) r0

/-- WolfSearchAlgorithm.updateIfBetter: evaluates the candidate and,
when the value is strictly below Evaluations[index], writes the
candidate and its value into slot index of the two parallel lists. -/
def updateIfBetter (task : Task α) (Wolves : List (List α)) (Evaluations : List α)
    (wolfTmp : List α) (index : ℕ) : List (List α) × List α :=
  let wolfTmpEvaluation := task.eval wolfTmp
  if wolfTmpEvaluation < Evaluations.getD index 0 then
    (Wolves.set index wolfTmp, Evaluations.set index wolfTmpEvaluation)
  else (Wolves, Evaluations)

/-- WolfSearchAlgorithm.searchWithinVisual: repeatedly draws
wolfTmp = wolf + alpha * randn(len(wolf)) * r until feasible.  The
function body neither returns wolfTmp nor assigns it into wolf, so its
only effect is advancing the random stream; this embedding therefore
returns just the advanced Rng. -/
def searchWithinVisual (task : Task α) (p : Params α) (wolf : List α) :
    ℕ → Rng α → Option (Rng α)
  | 0, _ => none
  | fuel + 1, rng =>
    match randnVec wolf.length rng with
    | none => none
    | some (g, rng1) =>
      let wolfTmp := List.zipWith (fun w gi => w + p.alpha * gi * p.r) wolf g
      if task.isFeasible wolfTmp then some rng1
      else searchWithinVisual task p wolf fuel rng1

/-- Modelled from the spec: the local visual search as the spec words
it — generate candidate = wolf + alpha * gaussianVector(dim) * r,
resample until Task.isFeasible(candidate) holds, and hand the feasible
candidate back for acceptance.  Kept for comparison with
searchWithinVisual, which discards the candidate. -/
def searchWithinVisualSpec (task : Task α) (p : Params α) (wolf : List α) :
    ℕ → Rng α → Option (List α × Rng α)
  | 0, _ => none
  | fuel + 1, rng =>
    match randnVec wolf.length rng with
    | none => none
    | some (g, rng1) =>
      let candidate := List.zipWith (fun w gi => w + p.alpha * gi * p.r) wolf g
      if task.isFeasible candidate then some (candidate, rng1)
      else searchWithinVisualSpec task p wolf fuel rng1

/-- The rejection-sampling loop of the pack-attraction move: draw a
scalar gaussian, form newWolf = wolf*(1-beta1) + bestWolf*beta1 +
alpha*g (the same scalar g added to every dimension), retry until
feasible. -/
def packSample (task : Task α) (p : Params α) (wolf bestWolf : List α) (beta1 : α) :
    ℕ → Rng α → Option (List α × Rng α)
  | 0, _ => none
  | fuel + 1, rng =>
    match randn1 rng with
    | none => none
    | some (g, rng1) =>
      let newWolf :=
        (List.zipWith (fun w b => w * (1 - beta1) + b * beta1) wolf bestWolf).map
          (fun x => x + p.alpha * g)
      if task.isFeasible newWolf then some (newWolf, rng1)
      else packSample task p wolf bestWolf beta1 fuel rng1

/-- The per-dimension rejection loop of WolfSearchAlgorithm.escape:
draw escape = randn() * (bRange[i]/2 - r), form
tmpWolf = wolf[i] + alpha * escape, retry until that dimension's value
is feasible. -/
def escapeDim (task : Task α) (p : Params α) (racc : α) (wi : α) (i : ℕ) :
    ℕ → Rng α → Option (α × Rng α)
  | 0, _ => none
  | fuel + 1, rng =>
    match randn1 rng with
    | none => none
    | some (g, rng1) =>
      let esc := g * (task.bRange i / 2 - racc)
      let tmpWolf := wi + p.alpha * esc
      if task.dimFeasible i tmpWolf then some (tmpWolf, rng1)
      else escapeDim task p racc wi i fuel rng1

/-- The dimension loop of WolfSearchAlgorithm.escape, processing the
remaining coordinates ws whose first element sits at absolute index i
of the wolf. -/
def escapeGo (task : Task α) (p : Params α) (racc : α) (fuel : ℕ) :
    List α → ℕ → Rng α → Option (List α × Rng α)
  | [], _, rng => some ([], rng)
  | w :: ws, i, rng =>
    match escapeDim task p racc w i fuel rng with
    | none => none
    | some (x, rng1) =>
      match escapeGo task p racc fuel ws (i + 1) rng1 with
      | none => none
      | some (xs, rng2) => some (x :: xs, rng2)

/-- WolfSearchAlgorithm.escape: copies the wolf and replaces every
coordinate by a per-dimension rejection-sampled escape value. -/
def escape (task : Task α) (p : Params α) (wolf : List α) (racc : α)
    (fuel : ℕ) (rng : Rng α) : Option (List α × Rng α) :=
  escapeGo task p racc fuel wolf 0 rng

/-- The mutable state threaded through the per-wolf loop of
runIteration: the population, its evaluations, the loop-carried
accumulator r (initialised to 0 at the top of runIteration, before the
loop over wolves), and the random stream. -/
structure IterState (α : Type) where
  W : List (List α)
  Ev : List α
  r : α
  rng : Rng α
deriving DecidableEq

/-- Lines 176-179 of wsa.py (also repeated at 203-206): copy the
current wolf, run searchWithinVisual (which only advances the random
stream), and pass the copy — the unperturbed current wolf — to
updateIfBetter. -/
def visualPhase (task : Task α) (p : Params α) (index fuel : ℕ) (st : IterState α) :
    Option (IterState α) :=
  let wolfTmp := st.W.getD index []
  match searchWithinVisual task p wolfTmp fuel st.rng with
  | none => none
  | some rng1 =>
    let WE := updateIfBetter task st.W st.Ev wolfTmp index
    some ⟨WE.1, WE.2, st.r, rng1⟩

/-- The indices of the wolves whose distance to the current wolf is
strictly between 0 and the visual radius (lines 182-184 of wsa.py),
computed from the in-place-updated population. -/
def satisfiedIndexes (E : EnvOps α) (p : Params α) (NP index : ℕ)
    (st : IterState α) : List ℕ :=
  let wolf := st.W.getD index []
  let distances := (List.range NP).map fun i => E.sqrt (sumSqDiff wolf (st.W.getD i []))
  (List.range NP).filter fun j =>
    decide (0 < distances.getD j 0) && decide (distances.getD j 0 < p.r)

/-- The satisfied neighbor with the best (lowest) current evaluation,
ties broken by first occurrence (lines 187-189 of wsa.py). -/
def bestSatisfiedWolf (st : IterState α) (sats : List ℕ) : List α :=
  let satisfiedEvaluation := sats.map fun j => st.Ev.getD j 0
  st.W.getD (sats.getD (argmin satisfiedEvaluation) 0) []

/-- Lines 181-206 of wsa.py: the distance computation and either the
pack-attraction move (non-empty neighbor set: accumulate r from its
incoming value, form beta1 = 1 * exp(-1 * r ** 2), rejection-sample
the attracted candidate, accept via updateIfBetter) or, when the
neighbor set is empty, a second local visual search. -/
def packPhase (E : EnvOps α) (task : Task α) (p : Params α) (NP index fuel : ℕ)
    (st : IterState α) : Option (IterState α) :=
  let wolf := st.W.getD index []
  let sats := satisfiedIndexes E p NP index st
  if sats.length > 0 then
    let bestWolf := bestSatisfiedWolf st sats
    let r1 := rDistAccum E bestWolf wolf st.r
    let beta1 := 1 * E.exp (-1 * r1 ^ 2)
    match packSample task p wolf bestWolf beta1 fuel st.rng with
    | none => none
    | some (newWolf, rng1) =>
      let WE := updateIfBetter task st.W st.Ev newWolf index
      some ⟨WE.1, WE.2, r1, rng1⟩
  else visualPhase task p index fuel st

/-- Lines 208-210 of wsa.py: draw a uniform value; when it exceeds
self.pa run the escape move on the current wolf with the current
accumulator value and accept via updateIfBetter, otherwise leave the
population untouched. -/
def escapePhase (task : Task α) (p : Params α) (index fuel : ℕ) (st : IterState α) :
    Option (IterState α) :=
  match rand1 st.rng with
  | none => none
  | some (u, rng1) =>
    if u > p.pa then
      match escape task p (st.W.getD index []) st.r fuel rng1 with
      | none => none
      | some (newWolf, rng2) =>
        let WE := updateIfBetter task st.W st.Ev newWolf index
        some ⟨WE.1, WE.2, st.r, rng2⟩
    else some ⟨st.W, st.Ev, st.r, rng1⟩

/-- The body of the per-wolf loop of runIteration for the wolf at the
given index. -/
def wolfStep (E : EnvOps α) (task : Task α) (p : Params α) (NP index fuel : ℕ)
    (st : IterState α) : Option (IterState α) :=
  (visualPhase task p index fuel st).bind fun s1 =>
    (packPhase E task p NP index fuel s1).bind fun s2 =>
      escapePhase task p index fuel s2

/-- The loop over wolf indices of runIteration. -/
def runIterationAux (E : EnvOps α) (task : Task α) (p : Params α) (NP fuel : ℕ) :
    List ℕ → IterState α → Option (IterState α)
  | [], st => some st
  | i :: rest, st => (wolfStep E task p NP i fuel st).bind (runIterationAux E task p NP fuel rest)

/-- The global-best update at the end of runIteration (lines 212-216
of wsa.py): bestEvalIndex = argmin(Evaluations); replace xb and fxb
exactly when Evaluations[bestEvalIndex] < fxb. -/
def finalizeBest (st : IterState α) (xb : List α) (fxb : α) :
    List (List α) × List α × List α × α × Rng α :=
  let bestEvalIndex := argmin st.Ev
  if st.Ev.getD bestEvalIndex 0 < fxb then
    (st.W, st.Ev, st.W.getD bestEvalIndex [], st.Ev.getD bestEvalIndex 0, st.rng)
  else (st.W, st.Ev, xb, fxb, st.rng)

/-- WolfSearchAlgorithm.runIteration: r = 0; the per-wolf loop over
enumerate(Wolves); then the global-best update.  Returns the updated
population, evaluations, global best, global best value and the
advanced random stream. -/
def runIteration (E : EnvOps α) (task : Task α) (p : Params α) (NP fuel : ℕ)
    (Wolves : List (List α)) (Evaluations : List α) (xb : List α) (fxb : α)
    (rng : Rng α) : Option (List (List α) × List α × List α × α × Rng α) :=
  (runIterationAux E task p NP fuel (List.range Wolves.length)
      ⟨Wolves, Evaluations, 0, rng⟩).map
    fun st => finalizeBest st xb fxb

/-- Follows the claim's words, for comparison with packPhase: the
variant of the pack-attraction step whose distance accumulator is
reset to zero at the start of each pack-attraction computation instead
of folding from the loop-carried value. -/
def packPhaseReset (E : EnvOps α) (task : Task α) (p : Params α) (NP index fuel : ℕ)
    (st : IterState α) : Option (IterState α) :=
  let wolf := st.W.getD index []
  let sats := satisfiedIndexes E p NP index st
  if sats.length > 0 then
    let bestWolf := bestSatisfiedWolf st sats
    let r1 := rDistAccum E bestWolf wolf 0
    let beta1 := 1 * E.exp (-1 * r1 ^ 2)
    match packSample task p wolf bestWolf beta1 fuel st.rng with
    | none => none
    | some (newWolf, rng1) =>
      let WE := updateIfBetter task st.W st.Ev newWolf index
      some ⟨WE.1, WE.2, r1, rng1⟩
  else visualPhase task p index fuel st

/-- Follows the claim's words: the per-wolf body with the reset
accumulator semantics. -/
def wolfStepReset (E : EnvOps α) (task : Task α) (p : Params α) (NP index fuel : ℕ)
    (st : IterState α) : Option (IterState α) :=
  (visualPhase task p index fuel st).bind fun s1 =>
    (packPhaseReset E task p NP index fuel s1).bind fun s2 =>
      escapePhase task p index fuel s2

/-- Follows the claim's words: runIteration with the accumulator reset
to zero for every pack-attraction computation. -/
def runIterationResetAux (E : EnvOps α) (task : Task α) (p : Params α) (NP fuel : ℕ) :
    List ℕ → IterState α → Option (IterState α)
  | [], st => some st
  | i :: rest, st =>
    (wolfStepReset E task p NP i fuel st).bind (runIterationResetAux E task p NP fuel rest)

/-- Follows the claim's words: the whole iteration under the
reset-per-computation accumulator semantics. -/
def runIterationReset (E : EnvOps α) (task : Task α) (p : Params α) (NP fuel : ℕ)
    (Wolves : List (List α)) (Evaluations : List α) (xb : List α) (fxb : α)
    (rng : Rng α) : Option (List (List α) × List α × List α × α × Rng α) :=
  (runIterationResetAux E task p NP fuel (List.range Wolves.length)
      ⟨Wolves, Evaluations, 0, rng⟩).map
    fun st => finalizeBest st xb fxb

lemma getD_mem_of_lt {β : Type} {l : List β} {n : ℕ} {d : β} (h : n < l.length) :
    l.getD n d ∈ l := by
  rw [List.getD_eq_getElem?_getD, List.getElem?_eq_getElem h]
  exact List.getElem_mem h

lemma updateIfBetter_len_W (task : Task α) (W : List (List α)) (Ev : List α)
    (c : List α) (i : ℕ) : (updateIfBetter task W Ev c i).1.length = W.length := by
  simp only [updateIfBetter]
  split <;> simp

lemma updateIfBetter_len_Ev (task : Task α) (W : List (List α)) (Ev : List α)
    (c : List α) (i : ℕ) : (updateIfBetter task W Ev c i).2.length = Ev.length := by
  simp only [updateIfBetter]
  split <;> simp

lemma getD_set_le {Ev : List α} {i : ℕ} {v : α} (hv : v ≤ Ev.getD i 0) (j : ℕ) :
    (Ev.set i v).getD j 0 ≤ Ev.getD j 0 := by
  rw [List.getD_eq_getElem?_getD, List.getD_eq_getElem?_getD, List.getElem?_set]
  by_cases hij : i = j
  · subst hij
    by_cases hi : i < Ev.length
    · simpa [hi] using hv
    · simp [hi, List.getElem?_eq_none (le_of_not_lt hi)]
  · simp [hij]

lemma updateIfBetter_Ev_le (task : Task α) (W : List (List α)) (Ev : List α)
    (c : List α) (i : ℕ) (j : ℕ) :
    (updateIfBetter task W Ev c i).2.getD j 0 ≤ Ev.getD j 0 := by
  simp only [updateIfBetter]
  split
  · exact getD_set_le (le_of_lt (by assumption)) j
  · exact le_refl _

lemma updateIfBetter_W_mem (task : Task α) (W : List (List α)) (Ev : List α)
    (c : List α) (i : ℕ) {w : List α} (hw : w ∈ (updateIfBetter task W Ev c i).1) :
    w ∈ W ∨ (w = c ∧ i < W.length) := by
  by_cases hi : i < W.length
  · simp only [updateIfBetter] at hw
    split at hw
    · rcases List.mem_or_eq_of_mem_set hw with h | h
      · exact Or.inl h
      · exact Or.inr ⟨h, hi⟩
    · exact Or.inl hw
  · simp only [updateIfBetter] at hw
    split at hw
    · rw [List.set_eq_of_length_le (le_of_not_lt hi)] at hw
      exact Or.inl hw
    · exact Or.inl hw

/-- All population members are feasible. -/
def FeasPop (task : Task α) (W : List (List α)) : Prop :=
  ∀ w ∈ W, task.isFeasible w = true

lemma packSample_feasible {task : Task α} {p : Params α} {wolf bestWolf : List α}
    {beta1 : α} {fuel : ℕ} {rng : Rng α} {nw : List α} {rng1 : Rng α}
    (h : packSample task p wolf bestWolf beta1 fuel rng = some (nw, rng1)) :
    task.isFeasible nw = true := by
  induction fuel generalizing rng with
  | zero => simp [packSample] at h
  | succ n ih =>
    rw [packSample] at h
    rcases hr : randn1 rng with _ | ⟨g, rng2⟩ <;> rw [hr] at h
    · exact absurd h (by simp)
    · dsimp only at h
      split at h
      · cases h
        assumption
      · exact ih h

lemma escapeDim_spec {task : Task α} {p : Params α} {racc w : α} {i fuel : ℕ}
    {rng : Rng α} {x : α} {rng1 : Rng α}
    (h : escapeDim task p racc w i fuel rng = some (x, rng1)) :
    task.dimFeasible i x = true ∧
      ∃ g, x = w + p.alpha * (g * (task.bRange i / 2 - racc)) := by
  induction fuel generalizing rng with
  | zero => simp [escapeDim] at h
  | succ n ih =>
    rw [escapeDim] at h
    rcases hr : randn1 rng with _ | ⟨g, rng2⟩ <;> rw [hr] at h
    · exact absurd h (by simp)
    · dsimp only at h
      split at h
      · cases h
        exact ⟨by assumption, g, rfl⟩
      · exact ih h

lemma escapeGo_spec {task : Task α} {p : Params α} {racc : α} {fuel : ℕ}
    {ws : List α} {i : ℕ} {rng : Rng α} {xs : List α} {rng1 : Rng α}
    (h : escapeGo task p racc fuel ws i rng = some (xs, rng1)) :
    xs.length = ws.length ∧
      ∀ k, k < ws.length →
        task.dimFeasible (i + k) (xs.getD k 0) = true ∧
          ∃ g, xs.getD k 0 = ws.getD k 0 + p.alpha * (g * (task.bRange (i + k) / 2 - racc)) := by
  induction ws generalizing i rng xs with
  | nil =>
    rw [escapeGo] at h
    cases h
    exact ⟨rfl, by intro k hk; exact absurd hk (by simp)⟩
  | cons w ws ih =>
    rw [escapeGo] at h
    rcases hd : escapeDim task p racc w i fuel rng with _ | ⟨x, rng2⟩ <;> rw [hd] at h
    · exact absurd h (by simp)
    · dsimp only at h
      rcases hg : escapeGo task p racc fuel ws (i + 1) rng2 with _ | ⟨ys, rng3⟩ <;>
        rw [hg] at h
      · exact absurd h (by simp)
      · cases h
        obtain ⟨hlen, hall⟩ := ih hg
        refine ⟨by simp [hlen], ?_⟩
        intro k hk
        cases k with
        | zero =>
          simpa using escapeDim_spec hd
        | succ m =>
          have hm : m < ws.length := by
            simpa [Nat.succ_lt_succ_iff] using hk
          have := hall m hm
          simpa [Nat.add_assoc, Nat.add_comm 1 m] using this

lemma isFeasible_iff (task : Task α) (v : List α) :
    task.isFeasible v = true ↔
      v.length = task.lower.length ∧
        ∀ i, i < v.length →
          task.lower.getD i 0 ≤ v.getD i 0 ∧ v.getD i 0 ≤ task.upper.getD i 0 := by
  simp [Task.isFeasible, List.all_eq_true, List.mem_range]

lemma dimFeasible_iff (task : Task α) (i : ℕ) (x : α) :
    task.dimFeasible i x = true ↔
      task.lower.getD i 0 ≤ x ∧ x ≤ task.upper.getD i 0 := by
  simp [Task.dimFeasible]

lemma escape_feasible {task : Task α} {p : Params α} {wolf : List α} {racc : α}
    {fuel : ℕ} {rng : Rng α} {nw : List α} {rng1 : Rng α}
    (hwolf : task.isFeasible wolf = true)
    (h : escape task p wolf racc fuel rng = some (nw, rng1)) :
    task.isFeasible nw = true := by
  obtain ⟨hlen, hall⟩ := escapeGo_spec h
  obtain ⟨hwl, _⟩ := (isFeasible_iff task wolf).mp hwolf
  refine (isFeasible_iff task nw).mpr ⟨by rw [hlen, hwl], ?_⟩
  intro i hi
  have hi' : i < wolf.length := by rwa [hlen] at hi
  have := (hall i hi').1
  simpa [dimFeasible_iff] using this

lemma visualPhase_le {task : Task α} {p : Params α} {index fuel : ℕ}
    {st st' : IterState α} (h : visualPhase task p index fuel st = some st') :
    st'.W.length = st.W.length ∧ st'.Ev.length = st.Ev.length ∧
      (∀ j, st'.Ev.getD j 0 ≤ st.Ev.getD j 0) ∧ st'.r = st.r := by
  simp only [visualPhase] at h
  split at h
  · exact absurd h (by simp)
  · cases h
    exact ⟨updateIfBetter_len_W .., updateIfBetter_len_Ev ..,
      fun j => updateIfBetter_Ev_le task st.W st.Ev _ index j, rfl⟩

lemma visualPhase_feas {task : Task α} {p : Params α} {index fuel : ℕ}
    {st st' : IterState α} (hF : FeasPop task st.W)
    (h : visualPhase task p index fuel st = some st') : FeasPop task st'.W := by
  simp only [visualPhase] at h
  split at h
  · exact absurd h (by simp)
  · cases h
    intro w hw
    rcases updateIfBetter_W_mem task st.W st.Ev _ index hw with hm | ⟨rfl, hlt⟩
    · exact hF w hm
    · exact hF _ (getD_mem_of_lt hlt)

lemma packPhase_le {E : EnvOps α} {task : Task α} {p : Params α} {NP index fuel : ℕ}
    {st st' : IterState α} (h : packPhase E task p NP index fuel st = some st') :
    st'.W.length = st.W.length ∧ st'.Ev.length = st.Ev.length ∧
      ∀ j, st'.Ev.getD j 0 ≤ st.Ev.getD j 0 := by
  simp only [packPhase] at h
  split at h
  · split at h
    · exact absurd h (by simp)
    · cases h
      exact ⟨updateIfBetter_len_W .., updateIfBetter_len_Ev ..,
        fun j => updateIfBetter_Ev_le task st.W st.Ev _ index j⟩
  · obtain ⟨h1, h2, h3, _⟩ := visualPhase_le h
    exact ⟨h1, h2, h3⟩

lemma packPhase_feas {E : EnvOps α} {task : Task α} {p : Params α} {NP index fuel : ℕ}
    {st st' : IterState α} (hF : FeasPop task st.W)
    (h : packPhase E task p NP index fuel st = some st') : FeasPop task st'.W := by
  simp only [packPhase] at h
  split at h
  · split at h
    · exact absurd h (by simp)
    · rename_i heq
      cases h
      intro w hw
      rcases updateIfBetter_W_mem task st.W st.Ev _ index hw with hm | ⟨rfl, _⟩
      · exact hF w hm
      · exact packSample_feasible heq
  · exact visualPhase_feas hF h

lemma escapePhase_le {task : Task α} {p : Params α} {index fuel : ℕ}
    {st st' : IterState α} (h : escapePhase task p index fuel st = some st') :
    st'.W.length = st.W.length ∧ st'.Ev.length = st.Ev.length ∧
      ∀ j, st'.Ev.getD j 0 ≤ st.Ev.getD j 0 := by
  simp only [escapePhase] at h
  split at h
  · exact absurd h (by simp)
  · split at h
    · split at h
      · exact absurd h (by simp)
      · cases h
        exact ⟨updateIfBetter_len_W .., updateIfBetter_len_Ev ..,
          fun j => updateIfBetter_Ev_le task st.W st.Ev _ index j⟩
    · cases h
      exact ⟨rfl, rfl, fun j => le_refl _⟩

lemma escapePhase_feas {task : Task α} {p : Params α} {index fuel : ℕ}
    {st st' : IterState α} (hF : FeasPop task st.W)
    (h : escapePhase task p index fuel st = some st') : FeasPop task st'.W := by
  simp only [escapePhase] at h
  split at h
  · exact absurd h (by simp)
  · split at h
    · split at h
      · exact absurd h (by simp)
      · rename_i heq
        cases h
        intro w hw
        rcases updateIfBetter_W_mem task st.W st.Ev _ index hw with hm | ⟨rfl, hlt⟩
        · exact hF w hm
        · exact escape_feasible (hF _ (getD_mem_of_lt hlt)) heq
    · cases h
      exact hF

lemma wolfStep_le {E : EnvOps α} {task : Task α} {p : Params α} {NP index fuel : ℕ}
    {st st' : IterState α} (h : wolfStep E task p NP index fuel st = some st') :
    st'.W.length = st.W.length ∧ st'.Ev.length = st.Ev.length ∧
      ∀ j, st'.Ev.getD j 0 ≤ st.Ev.getD j 0 := by
  simp only [wolfStep, Option.bind_eq_some] at h
  obtain ⟨s1, h1, s2, h2, h3⟩ := h
  obtain ⟨a1, b1, c1, _⟩ := visualPhase_le h1
  obtain ⟨a2, b2, c2⟩ := packPhase_le h2
  obtain ⟨a3, b3, c3⟩ := escapePhase_le h3
  exact ⟨a3.trans (a2.trans a1), b3.trans (b2.trans b1),
    fun j => le_trans (c3 j) (le_trans (c2 j) (c1 j))⟩

lemma wolfStep_feas {E : EnvOps α} {task : Task α} {p : Params α} {NP index fuel : ℕ}
    {st st' : IterState α} (hF : FeasPop task st.W)
    (h : wolfStep E task p NP index fuel st = some st') : FeasPop task st'.W := by
  simp only [wolfStep, Option.bind_eq_some] at h
  obtain ⟨s1, h1, s2, h2, h3⟩ := h
  exact escapePhase_feas (packPhase_feas (visualPhase_feas hF h1) h2) h3

lemma runIterationAux_le {E : EnvOps α} {task : Task α} {p : Params α} {NP fuel : ℕ}
    {idxs : List ℕ} {st st' : IterState α}
    (h : runIterationAux E task p NP fuel idxs st = some st') :
    st'.W.length = st.W.length ∧ st'.Ev.length = st.Ev.length ∧
      ∀ j, st'.Ev.getD j 0 ≤ st.Ev.getD j 0 := by
  induction idxs generalizing st with
  | nil =>
    rw [runIterationAux] at h
    cases h
    exact ⟨rfl, rfl, fun j => le_refl _⟩
  | cons i rest ih =>
    rw [runIterationAux, Option.bind_eq_some] at h
    obtain ⟨s1, h1, h2⟩ := h
    obtain ⟨a1, b1, c1⟩ := wolfStep_le h1
    obtain ⟨a2, b2, c2⟩ := ih h2
    exact ⟨a2.trans a1, b2.trans b1, fun j => le_trans (c2 j) (c1 j)⟩

lemma runIterationAux_feas {E : EnvOps α} {task : Task α} {p : Params α} {NP fuel : ℕ}
    {idxs : List ℕ} {st st' : IterState α} (hF : FeasPop task st.W)
    (h : runIterationAux E task p NP fuel idxs st = some st') : FeasPop task st'.W := by
  induction idxs generalizing st with
  | nil =>
    rw [runIterationAux] at h
    cases h
    exact hF
  | cons i rest ih =>
    rw [runIterationAux, Option.bind_eq_some] at h
    obtain ⟨s1, h1, h2⟩ := h
    exact ih (wolfStep_feas hF h1) h2

lemma finalizeBest_W (st : IterState α) (xb : List α) (fxb : α) :
    (finalizeBest st xb fxb).1 = st.W := by
  simp only [finalizeBest]
  split <;> rfl

lemma finalizeBest_Ev (st : IterState α) (xb : List α) (fxb : α) :
    (finalizeBest st xb fxb).2.1 = st.Ev := by
  simp only [finalizeBest]
  split <;> rfl

/-- C9: the typeParameters validators accept and reject exactly the
documented domains: NP exactly the positive integers, r and s and
alpha exactly the floats strictly greater than 0, pa exactly the
floats in the closed interval from 0 to 1; every value of the other
runtime type is rejected. -/
theorem typeParameters_validator_domains (x : PyVal) :
    (typeParametersNP x = true ↔ ∃ n : ℤ, x = PyVal.int n ∧ 0 < n) ∧
    (typeParametersR x = true ↔ ∃ q : ℚ, x = PyVal.float q ∧ 0 < q) ∧
    (typeParametersS x = true ↔ ∃ q : ℚ, x = PyVal.float q ∧ 0 < q) ∧
    (typeParametersAlpha x = true ↔ ∃ q : ℚ, x = PyVal.float q ∧ 0 < q) ∧
    (typeParametersPa x = true ↔ ∃ q : ℚ, x = PyVal.float q ∧ 0 ≤ q ∧ q ≤ 1) := by
  cases x with
  | int n =>
    simp [typeParametersNP, typeParametersR, typeParametersS, typeParametersAlpha,
      typeParametersPa, PyVal.isFloat, PyVal.isInt, PyVal.val]
  | float q =>
    simp [typeParametersNP, typeParametersR, typeParametersS, typeParametersAlpha,
      typeParametersPa, PyVal.isFloat, PyVal.isInt, PyVal.val, and_assoc]

/-- Witness for C9 at concrete inputs: 3 is accepted by the NP
validator, the float one half by the r validator, the float 1 by the
pa validator. -/
theorem typeParameters_validator_domains_witness :
    typeParametersNP (PyVal.int 3) = true ∧
      typeParametersR (PyVal.float (1/2)) = true ∧
      typeParametersPa (PyVal.float 1) = true :=
  ⟨((typeParameters_validator_domains (PyVal.int 3)).1).mpr ⟨3, rfl, by norm_num⟩,
    ((typeParameters_validator_domains (PyVal.float (1/2))).2.1).mpr ⟨1/2, rfl, by norm_num⟩,
    ((typeParameters_validator_domains (PyVal.float 1)).2.2.2.2).mpr
      ⟨1, rfl, by norm_num, by norm_num⟩⟩

/-- C10: an algorithm configured entirely with defaults stores
r = int 1 and alpha = int 1, both of which its own typeParameters
validators reject (they are not floats), while the defaults s = 0.2
and pa = 0.2 pass their validators. -/
theorem default_parameters_vs_validators :
    setParametersDefault =
        some ⟨PyVal.int 10, PyVal.int 1, PyVal.float (1/5), PyVal.int 1, PyVal.float (1/5)⟩ ∧
      typeParametersR (PyVal.int 1) = false ∧
      typeParametersAlpha (PyVal.int 1) = false ∧
      typeParametersS (PyVal.float (1/5)) = true ∧
      typeParametersPa (PyVal.float (1/5)) = true := by
  with_unfolding_all decide

/-- Counterexample to C3: setParameters silently accepts and stores an
out-of-domain r (here the float -1, rejected by the r validator)
without raising any configuration-time error. -/
theorem setParameters_accepts_invalid_r :
    setParameters (PyVal.int 10) (PyVal.float (-1)) (PyVal.float (1/5)) (PyVal.float 1)
        (PyVal.float (1/5)) =
      some ⟨PyVal.int 10, PyVal.float (-1), PyVal.float (1/5), PyVal.float 1,
        PyVal.float (1/5)⟩ ∧
      typeParametersR (PyVal.float (-1)) = false := by
  with_unfolding_all decide

/-- C3 amended: setParameters performs no validation of r, s, alpha
or pa; whenever the (spec-modelled) base class accepts NP, the call
succeeds and stores r, s, alpha, pa verbatim — in particular values
the typeParameters validators reject are silently accepted, and no
value is clamped. -/
theorem setParameters_stores_verbatim (np r s alpha pa : PyVal)
    (h : typeParametersNP np = true) :
    setParameters np r s alpha pa = some ⟨np, r, s, alpha, pa⟩ := by
  simp [setParameters, algorithmSetParameters, h]

/-- Witness for the amended C3: a call with an invalid (negative
float) r and an invalid (integer zero) s succeeds and stores the
values unchanged. -/
theorem setParameters_stores_verbatim_witness :
    setParameters (PyVal.int 7) (PyVal.float (-2)) (PyVal.int 0) (PyVal.float 0)
        (PyVal.float 5) =
      some ⟨PyVal.int 7, PyVal.float (-2), PyVal.int 0, PyVal.float 0, PyVal.float 5⟩ :=
  setParameters_stores_verbatim _ _ _ _ _ (by decide)

/-- C4: updateIfBetter evaluates the candidate and replaces
Wolves[index] and Evaluations[index] exactly when the new value is
strictly lower than Evaluations[index]; otherwise it leaves both lists
completely unchanged. -/
theorem updateIfBetter_exact (task : Task α) (W : List (List α)) (Ev : List α)
    (cand : List α) (i : ℕ) (h : i < Ev.length) :
    (task.eval cand < Ev.get ⟨i, h⟩ →
      updateIfBetter task W Ev cand i = (W.set i cand, Ev.set i (task.eval cand))) ∧
    (¬ task.eval cand < Ev.get ⟨i, h⟩ →
      updateIfBetter task W Ev cand i = (W, Ev)) := by
  have hg : Ev.getD i 0 = Ev.get ⟨i, h⟩ := by
    rw [List.getD_eq_getElem?_getD, List.getElem?_eq_getElem h]
    rfl
  refine ⟨fun hlt => ?_, fun hge => ?_⟩
  · simp only [updateIfBetter]
    rw [if_pos (by rw [hg]; exact hlt)]
  · simp only [updateIfBetter]
    rw [if_neg (by rw [hg]; exact hge)]

/-- Witness for C4: a strictly better candidate is written into slot
0, a worse one leaves both lists untouched. -/
theorem updateIfBetter_exact_witness :
    updateIfBetter (α := ℚ) ⟨fun v => v.sum, [-10], [10]⟩ [[5]] [5] [3] 0 = ([[3]], [3]) ∧
      updateIfBetter (α := ℚ) ⟨fun v => v.sum, [-10], [10]⟩ [[5]] [5] [7] 0 = ([[5]], [5]) := by
  constructor
  · have h := (updateIfBetter_exact (α := ℚ) ⟨fun v => v.sum, [-10], [10]⟩ [[5]] [5] [3] 0
      (by decide)).1 (by with_unfolding_all decide)
    rw [h]
    with_unfolding_all decide
  · exact (updateIfBetter_exact (α := ℚ) ⟨fun v => v.sum, [-10], [10]⟩ [[5]] [5] [7] 0
      (by decide)).2 (by with_unfolding_all decide)

/-- C5: after one runIteration call every slot of the evaluations list
is less than or equal to its value before the call — all population
mutation funnels through updateIfBetter, which only ever lowers a
slot's value. -/
theorem evaluations_nonincreasing_per_slot (E : EnvOps α) (task : Task α) (p : Params α)
    (NP fuel : ℕ) (W : List (List α)) (Ev xb : List α) (fxb : α) (rng : Rng α)
    (out : List (List α) × List α × List α × α × Rng α)
    (h : runIteration E task p NP fuel W Ev xb fxb rng = some out) :
    out.2.1.length = Ev.length ∧ ∀ j, out.2.1.getD j 0 ≤ Ev.getD j 0 := by
  unfold runIteration at h
  rcases haux : runIterationAux E task p NP fuel (List.range W.length) ⟨W, Ev, 0, rng⟩ with
    _ | st
  · rw [haux] at h
    exact absurd h (by simp)
  · rw [haux] at h
    simp only [Option.map_some'] at h
    obtain ⟨_, hEv, hle⟩ := runIterationAux_le haux
    cases h
    rw [finalizeBest_Ev]
    exact ⟨hEv, hle⟩

/-- Witness for C5: a concrete one-wolf run (the escape move improves
the wolf from 2 to -8) in which runIteration returns and slot 0 of the
returned evaluations is at most its incoming value. -/
theorem evaluations_nonincreasing_per_slot_witness :
    runIteration (⟨id, id⟩ : EnvOps ℚ) ⟨fun v => v.sum, [-10], [10]⟩ ⟨1, 1/5, 1, 1/2⟩ 1 3
        [[2]] [2] [2] 2 ⟨[0, 0, -1], [1]⟩ = some ([[-8]], [-8], [-8], -8, ⟨[], []⟩) ∧
      ([(-8 : ℚ)]).length = ([(2 : ℚ)]).length ∧
      ([(-8 : ℚ)]).getD 0 0 ≤ ([(2 : ℚ)]).getD 0 0 := by
  have hEq : runIteration (⟨id, id⟩ : EnvOps ℚ) ⟨fun v => v.sum, [-10], [10]⟩
      ⟨1, 1/5, 1, 1/2⟩ 1 3 [[2]] [2] [2] 2 ⟨[0, 0, -1], [1]⟩ =
      some ([[-8]], [-8], [-8], -8, ⟨[], []⟩) := by
    with_unfolding_all decide
  have h := evaluations_nonincreasing_per_slot _ _ _ _ _ _ _ _ _ _ _ hEq
  exact ⟨hEq, h.1, h.2 0⟩

/-- C6: the global best returned by runIteration is produced exactly
by the final argmin update — xb and fxb are replaced by the best slot
precisely when its value is strictly below fxb and kept otherwise —
and consequently the returned global-best value never exceeds the
incoming one. -/
theorem global_best_update_exact (E : EnvOps α) (task : Task α) (p : Params α)
    (NP fuel : ℕ) (W : List (List α)) (Ev xb : List α) (fxb : α) (rng : Rng α)
    (out : List (List α) × List α × List α × α × Rng α)
    (h : runIteration E task p NP fuel W Ev xb fxb rng = some out) :
    ((out.2.1.getD (argmin out.2.1) 0 < fxb ∧
        out.2.2.1 = out.1.getD (argmin out.2.1) [] ∧
        out.2.2.2.1 = out.2.1.getD (argmin out.2.1) 0) ∨
      (¬ out.2.1.getD (argmin out.2.1) 0 < fxb ∧
        out.2.2.1 = xb ∧ out.2.2.2.1 = fxb)) ∧
    out.2.2.2.1 ≤ fxb := by
  unfold runIteration at h
  rcases haux : runIterationAux E task p NP fuel (List.range W.length) ⟨W, Ev, 0, rng⟩ with
    _ | st
  · rw [haux] at h
    exact absurd h (by simp)
  · rw [haux] at h
    simp only [Option.map_some'] at h
    cases h
    simp only [finalizeBest]
    split
    · rename_i hlt
      exact ⟨Or.inl ⟨hlt, rfl, rfl⟩, le_of_lt hlt⟩
    · rename_i hge
      exact ⟨Or.inr ⟨hge, rfl, rfl⟩, le_refl _⟩

/-- Witness for C6: a concrete run in which the best slot improves on
the incoming global best, so fxb is replaced and does not increase. -/
theorem global_best_update_exact_witness :
    runIteration (⟨id, id⟩ : EnvOps ℚ) ⟨fun v => v.sum, [-10], [10]⟩ ⟨1, 1/5, 1, 1/2⟩ 1 3
        [[3]] [3] [3] 3 ⟨[0, 0, -1], [1]⟩ = some ([[-7]], [-7], [-7], -7, ⟨[], []⟩) ∧
      ((([[-7]], [-7], [-7], (-7 : ℚ), (⟨[], []⟩ : Rng ℚ)) :
          List (List ℚ) × List ℚ × List ℚ × ℚ × Rng ℚ)).2.2.2.1 ≤ 3 := by
  have hEq : runIteration (⟨id, id⟩ : EnvOps ℚ) ⟨fun v => v.sum, [-10], [10]⟩
      ⟨1, 1/5, 1, 1/2⟩ 1 3 [[3]] [3] [3] 3 ⟨[0, 0, -1], [1]⟩ =
      some ([[-7]], [-7], [-7], -7, ⟨[], []⟩) := by
    with_unfolding_all decide
  exact ⟨hEq, (global_best_update_exact _ _ _ _ _ _ _ _ _ _ _ hEq).2⟩

/-- C7: if every wolf of the population is feasible before a
runIteration call, every wolf of the returned population is feasible —
stored candidates are either rejection-sampled to feasibility or
copies of already feasible wolves. -/
theorem feasibility_preserved (E : EnvOps α) (task : Task α) (p : Params α)
    (NP fuel : ℕ) (W : List (List α)) (Ev xb : List α) (fxb : α) (rng : Rng α)
    (out : List (List α) × List α × List α × α × Rng α)
    (hF : ∀ w ∈ W, task.isFeasible w = true)
    (h : runIteration E task p NP fuel W Ev xb fxb rng = some out) :
    ∀ w ∈ out.1, task.isFeasible w = true := by
  unfold runIteration at h
  rcases haux : runIterationAux E task p NP fuel (List.range W.length) ⟨W, Ev, 0, rng⟩ with
    _ | st
  · rw [haux] at h
    exact absurd h (by simp)
  · rw [haux] at h
    simp only [Option.map_some'] at h
    cases h
    rw [finalizeBest_W]
    exact runIterationAux_feas (show FeasPop task (⟨W, Ev, 0, rng⟩ : IterState α).W from hF) haux

/-- Witness for C7: a concrete feasible one-wolf population stays
feasible through runIteration (the escape move lands at -9, inside the
bounds). -/
theorem feasibility_preserved_witness :
    runIteration (⟨id, id⟩ : EnvOps ℚ) ⟨fun v => v.sum, [-10], [10]⟩ ⟨1, 1/5, 1, 1/2⟩ 1 3
        [[1]] [1] [1] 1 ⟨[0, 0, -1], [1]⟩ = some ([[-9]], [-9], [-9], -9, ⟨[], []⟩) ∧
      Task.isFeasible (⟨fun v => v.sum, [-10], [10]⟩ : Task ℚ) [-9] = true := by
  have hEq : runIteration (⟨id, id⟩ : EnvOps ℚ) ⟨fun v => v.sum, [-10], [10]⟩
      ⟨1, 1/5, 1, 1/2⟩ 1 3 [[1]] [1] [1] 1 ⟨[0, 0, -1], [1]⟩ =
      some ([[-9]], [-9], [-9], -9, ⟨[], []⟩) := by
    with_unfolding_all decide
  exact ⟨hEq,
    feasibility_preserved _ _ _ _ _ _ _ _ _ _ _ (by with_unfolding_all decide) hEq [-9]
      (by simp)⟩

/-- C8: the escape move runs exactly when the drawn uniform value
strictly exceeds pa (otherwise the population and evaluations are left
untouched); when it runs, every coordinate k of the escape result is
wolf[k] + alpha * (g * (bRange(k)/2 - rDist)) for some gaussian draw
g, is feasible for its own dimension (dimension-wise rejection), and
the resulting vector is handed to updateIfBetter. -/
theorem escape_move_characterization (task : Task α) (p : Params α) (index fuel : ℕ)
    (st : IterState α) (u : α) (rng1 : Rng α)
    (hdraw : rand1 st.rng = some (u, rng1)) :
    (¬ u > p.pa → escapePhase task p index fuel st = some ⟨st.W, st.Ev, st.r, rng1⟩) ∧
    (u > p.pa →
      escapePhase task p index fuel st =
        (escape task p (st.W.getD index []) st.r fuel rng1).map fun pr =>
          ⟨(updateIfBetter task st.W st.Ev pr.1 index).1,
            (updateIfBetter task st.W st.Ev pr.1 index).2, st.r, pr.2⟩) ∧
    (∀ wolf : List α, ∀ racc : α, ∀ nw : List α, ∀ rng2 : Rng α,
      escape task p wolf racc fuel rng1 = some (nw, rng2) →
        nw.length = wolf.length ∧
          ∀ k, k < wolf.length →
            task.dimFeasible k (nw.getD k 0) = true ∧
              ∃ g, nw.getD k 0 =
                wolf.getD k 0 + p.alpha * (g * (task.bRange k / 2 - racc))) := by
  refine ⟨fun hle => ?_, fun hgt => ?_, fun wolf racc nw rng2 hesc => ?_⟩
  · simp only [escapePhase, hdraw]
    rw [if_neg hle]
  · simp only [escapePhase, hdraw]
    rw [if_pos hgt]
    rcases hesc : escape task p (st.W.getD index []) st.r fuel rng1 with _ | ⟨nw, rng2⟩
    · simp
    · simp
  · rw [escape] at hesc
    obtain ⟨hlen, hall⟩ := escapeGo_spec hesc
    refine ⟨hlen, fun k hk => ?_⟩
    have := hall k hk
    simpa using this

/-- Witness for C8: with pa = 1/2 and a drawn uniform value of 1 the
escape phase runs on a concrete state and equals the escape move fed
through updateIfBetter; the resulting coordinate satisfies the
characterization. -/
theorem escape_move_characterization_witness :
    escapePhase (α := ℚ) ⟨fun v => v.sum, [-10], [10]⟩ ⟨1, 1/5, 1, 1/2⟩ 0 3
        ⟨[[2]], [2], 1, ⟨[0], [1]⟩⟩ = some ⟨[[2]], [2], 1, ⟨[], []⟩⟩ := by
  have h := (escape_move_characterization (α := ℚ) ⟨fun v => v.sum, [-10], [10]⟩
      ⟨1, 1/5, 1, 1/2⟩ 0 3 ⟨[[2]], [2], 1, ⟨[0], [1]⟩⟩ 1 ⟨[0], []⟩ rfl).2.1
    (by norm_num)
  rw [h]
  with_unfolding_all decide

/-- C1: at a concrete input, searchWithinVisual only advances the
random stream and discards its feasible Gaussian-perturbed candidate
(the function body never returns or stores wolfTmp), so the local
visual search step passes the unperturbed wolf to updateIfBetter and
the population never moves — even though the drawn candidate [1] is
feasible, differs from the wolf [2], and is strictly better.  The
claim (and the spec) say the feasible perturbed candidate is the
vector accepted via updateIfBetter. -/
theorem searchWithinVisual_discards_candidate :
    runIteration (⟨id, id⟩ : EnvOps ℚ) ⟨fun v => v.sum, [-10], [10]⟩ ⟨1, 1/5, 1, 1/2⟩ 1 3
        [[2]] [2] [2] 3 ⟨[-1, -1], [0]⟩ = some ([[2]], [2], [2], 2, ⟨[], []⟩) ∧
      searchWithinVisual (α := ℚ) ⟨fun v => v.sum, [-10], [10]⟩ ⟨1, 1/5, 1, 1/2⟩ [2] 3
          ⟨[-1, -1], [0]⟩ = some ⟨[-1], [0]⟩ ∧
      searchWithinVisualSpec (α := ℚ) ⟨fun v => v.sum, [-10], [10]⟩ ⟨1, 1/5, 1, 1/2⟩ [2] 3
          ⟨[-1, -1], [0]⟩ = some ([1], ⟨[-1], [0]⟩) ∧
      visualPhase (α := ℚ) ⟨fun v => v.sum, [-10], [10]⟩ ⟨1, 1/5, 1, 1/2⟩ 0 3
          ⟨[[2]], [2], 0, ⟨[-1, -1], [0]⟩⟩ = some ⟨[[2]], [2], 0, ⟨[-1], [0]⟩⟩ ∧
      ([1] : List ℚ) ≠ [2] ∧
      Task.eval (⟨fun v => v.sum, [-10], [10]⟩ : Task ℚ) [1] < ([2] : List ℚ).getD 0 0 := by
  with_unfolding_all decide

lemma getD_take_eq {β : Type} [Inhabited β] (b : List β) (m i : ℕ) (h : i < m) :
    (b.take m).getD i default = b.getD i default := by
  rw [List.getD_eq_getElem?_getD, List.getD_eq_getElem?_getD, List.getElem?_take, if_pos h]

lemma rDistAccum_take_succ (E : EnvOps α) (b w : List α) (r0 : α) (n : ℕ)
    (hn : n < b.length) :
    rDistAccum E (b.take (n + 1)) w r0 =
      E.sqrt ((b.getD n 0 - w.getD n 0) ^ 2 + rDistAccum E (b.take n) w r0) := by
  have h1 : (b.take (n + 1)).length = n + 1 := by
    simp [List.length_take]
    omega
  have h2 : (b.take n).length = n := by
    simp [List.length_take]
    omega
  unfold rDistAccum
  rw [h1, h2, show List.range (n + 1) = List.range n ++ [n] from List.range_succ n,
    List.foldl_append]
  simp only [List.foldl_cons, List.foldl_nil]
  have hgd : ((b.take (n + 1)).getD n 0 - w.getD n 0) = (b.getD n 0 - w.getD n 0) := by
    rw [List.getD_eq_getElem?_getD, List.getD_eq_getElem?_getD (l := b), List.getElem?_take,
      if_pos (by omega : n < n + 1)]
  rw [hgd]
  congr 2
  apply List.foldl_ext
  intro acc i hi
  have hilt : i < n := List.mem_range.mp hi
  have e1 : (b.take (n + 1)).getD i 0 = b.getD i 0 := by
    rw [List.getD_eq_getElem?_getD, List.getD_eq_getElem?_getD (l := b), List.getElem?_take,
      if_pos (by omega : i < n + 1)]
  have e2 : (b.take n).getD i 0 = b.getD i 0 := by
    rw [List.getD_eq_getElem?_getD, List.getD_eq_getElem?_getD (l := b), List.getElem?_take,
      if_pos hilt]
  rw [e1, e2]

/-- C2 amended: the pack-attraction accumulation obeys the spec
recurrence rDist_k = sqrt((bestNeighbor[k]-wolf[k])^2 + rDist_(k-1)),
but its starting value is the loop-carried accumulator of the
enclosing runIteration call (reset to zero once per call, before the
wolf loop), not zero per computation: a wolf whose neighbor set is
non-empty leaves the accumulated value in the state for the next wolf,
and a wolf whose neighbor set is empty passes the carried value on
unchanged. -/
theorem rDist_accumulator_carries (E : EnvOps α) (task : Task α) (p : Params α)
    (NP index fuel : ℕ) (st st' : IterState α)
    (h : packPhase E task p NP index fuel st = some st') :
    ((satisfiedIndexes E p NP index st).length > 0 →
        st'.r = rDistAccum E (bestSatisfiedWolf st (satisfiedIndexes E p NP index st))
          (st.W.getD index []) st.r) ∧
    (¬ (satisfiedIndexes E p NP index st).length > 0 → st'.r = st.r) ∧
    (∀ b w : List α, ∀ r0 : α, ∀ n : ℕ, n < b.length →
      rDistAccum E (b.take (n + 1)) w r0 =
        E.sqrt ((b.getD n 0 - w.getD n 0) ^ 2 + rDistAccum E (b.take n) w r0)) := by
  refine ⟨fun hsat => ?_, fun hnsat => ?_,
    fun b w r0 n hn => rDistAccum_take_succ E b w r0 n hn⟩
  · simp only [packPhase] at h
    rw [if_pos hsat] at h
    split at h
    · exact absurd h (by simp)
    · cases h
      rfl
  · simp only [packPhase] at h
    rw [if_neg hnsat] at h
    exact (visualPhase_le h).2.2.2

/-- Witness for the amended C2: a concrete pack-attraction step whose
incoming accumulator is 5 leaves accumulator sqrt((1-0)^2 + 5) = 6
(with sqrt instantiated to the identity for computability), visibly
carrying the incoming 5 instead of restarting from 0; the recurrence
holds at dimension 0. -/
theorem rDist_accumulator_carries_witness :
    packPhase (⟨id, id⟩ : EnvOps ℚ) ⟨fun v => v.sum, [-100], [100]⟩ ⟨10, 1/5, 1, 1/2⟩ 2 0 3
        ⟨[[0], [1]], [0, 1], 5, ⟨[0], []⟩⟩ =
      some ⟨[[-36], [1]], [-36, 1], 6, ⟨[], []⟩⟩ ∧
      rDistAccum (⟨id, id⟩ : EnvOps ℚ) ([1].take 1) [0] 5 =
        (⟨id, id⟩ : EnvOps ℚ).sqrt ((([1] : List ℚ).getD 0 0 - ([0] : List ℚ).getD 0 0) ^ 2 +
          rDistAccum (⟨id, id⟩ : EnvOps ℚ) ([1].take 0) [0] 5) := by
  have hEq : packPhase (⟨id, id⟩ : EnvOps ℚ) ⟨fun v => v.sum, [-100], [100]⟩
      ⟨10, 1/5, 1, 1/2⟩ 2 0 3 ⟨[[0], [1]], [0, 1], 5, ⟨[0], []⟩⟩ =
      some ⟨[[-36], [1]], [-36, 1], 6, ⟨[], []⟩⟩ := by
    with_unfolding_all decide
  exact ⟨hEq,
    (rDist_accumulator_carries _ _ _ _ _ _ _ _ hEq).2.2 [1] [0] 5 0 (by decide)⟩

lemma searchWithinVisual_succ_feasible {task : Task α} {p : Params α} {wolf g : List α}
    {rng rng1 : Rng α} (fuel : ℕ)
    (hdraw : randnVec wolf.length rng = some (g, rng1))
    (hfeas : task.isFeasible (List.zipWith (fun w gi => w + p.alpha * gi * p.r) wolf g)
      = true) :
    searchWithinVisual task p wolf (fuel + 1) rng = some rng1 := by
  simp only [searchWithinVisual, hdraw, hfeas, if_true]

lemma packSample_succ_feasible {task : Task α} {p : Params α} {wolf bestWolf : List α}
    {beta1 g : α} {rng rng1 : Rng α} (fuel : ℕ)
    (hdraw : randn1 rng = some (g, rng1))
    (hfeas : task.isFeasible
      ((List.zipWith (fun w b => w * (1 - beta1) + b * beta1) wolf bestWolf).map
        (fun x => x + p.alpha * g)) = true) :
    packSample task p wolf bestWolf beta1 (fuel + 1) rng =
      some ((List.zipWith (fun w b => w * (1 - beta1) + b * beta1) wolf bestWolf).map
        (fun x => x + p.alpha * g), rng1) := by
  simp only [packSample, hdraw, hfeas, if_true]

lemma escapeDim_succ_feasible {task : Task α} {p : Params α} {racc wi g : α} {i : ℕ}
    {rng rng1 : Rng α} (fuel : ℕ)
    (hdraw : randn1 rng = some (g, rng1))
    (hfeas : task.dimFeasible i (wi + p.alpha * (g * (task.bRange i / 2 - racc))) = true) :
    escapeDim task p racc wi i (fuel + 1) rng =
      some (wi + p.alpha * (g * (task.bRange i / 2 - racc)), rng1) := by
  simp only [escapeDim, hdraw, hfeas, if_true]

lemma c2_v0 : visualPhase (α := ℝ) ⟨fun v => v.sum, [-100], [100]⟩ ⟨10, 1/5, 1, 1/2⟩ 0 2
    ⟨[[0], [1]], [0, 1], 0, ⟨[0, 5, 0, 5, -1], [0, 1]⟩⟩ =
    some ⟨[[0], [1]], [0, 1], 0, ⟨[5, 0, 5, -1], [0, 1]⟩⟩ := by
  have hs : searchWithinVisual (α := ℝ) ⟨fun v => v.sum, [-100], [100]⟩ ⟨10, 1/5, 1, 1/2⟩
      [0] 2 ⟨[0, 5, 0, 5, -1], [0, 1]⟩ = some ⟨[5, 0, 5, -1], [0, 1]⟩ := by
    refine searchWithinVisual_succ_feasible (g := [0]) 1 ?_ ?_
    · rfl
    · norm_num [Task.isFeasible]
  simp only [visualPhase]
  rw [show ([[0], [1]] : List (List ℝ)).getD 0 [] = [0] from rfl] 
  rw [hs]
  simp only [updateIfBetter]
  rw [if_neg (by norm_num)]

lemma c2_sat0 : satisfiedIndexes (⟨Real.sqrt, Real.exp⟩ : EnvOps ℝ) ⟨10, 1/5, 1, 1/2⟩ 2 0
    ⟨[[0], [1]], [0, 1], 0, ⟨[5, 0, 5, -1], [0, 1]⟩⟩ = [1] := by
  norm_num [satisfiedIndexes, sumSqDiff, List.range_succ, List.filter, Real.sqrt_zero,
    Real.sqrt_one]

lemma c2_p0 : packPhase (⟨Real.sqrt, Real.exp⟩ : EnvOps ℝ) ⟨fun v => v.sum, [-100], [100]⟩
    ⟨10, 1/5, 1, 1/2⟩ 2 0 2 ⟨[[0], [1]], [0, 1], 0, ⟨[5, 0, 5, -1], [0, 1]⟩⟩ =
    some ⟨[[0], [1]], [0, 1], 1, ⟨[0, 5, -1], [0, 1]⟩⟩ := by
  have he0 : (0 : ℝ) < Real.exp (-1) := Real.exp_pos _
  have he1 : Real.exp (-1 : ℝ) < 1 := by
    rw [Real.exp_lt_one_iff]
    norm_num
  have hbw : bestSatisfiedWolf (⟨[[0], [1]], [0, 1], 0, ⟨[5, 0, 5, -1], [0, 1]⟩⟩ :
      IterState ℝ) [1] = [1] := by
    norm_num [bestSatisfiedWolf, argmin, List.range_succ]
  have hr : rDistAccum (⟨Real.sqrt, Real.exp⟩ : EnvOps ℝ) [1] [0] 0 = 1 := by
    norm_num [rDistAccum, List.range_succ, Real.sqrt_one]
  have hps : packSample (α := ℝ) ⟨fun v => v.sum, [-100], [100]⟩ ⟨10, 1/5, 1, 1/2⟩ [0] [1]
      (1 * Real.exp (-1 * 1 ^ 2)) 2 ⟨[5, 0, 5, -1], [0, 1]⟩ =
      some ([0 * (1 - 1 * Real.exp (-1 * 1 ^ 2)) + 1 * (1 * Real.exp (-1 * 1 ^ 2)) + 1 * 5],
        ⟨[0, 5, -1], [0, 1]⟩) := by
    refine packSample_succ_feasible (g := 5) 1 ?_ ?_
    · rfl
    · simp only [List.zipWith, List.map]
      norm_num [Task.isFeasible]
      constructor <;> nlinarith [he0, he1]
  simp only [packPhase, c2_sat0]
  rw [if_pos (by norm_num)]
  rw [show (⟨[[0], [1]], [0, 1], 0, ⟨[5, 0, 5, -1], [0, 1]⟩⟩ :
      IterState ℝ).W.getD 0 [] = [0] from rfl]
  rw [hbw, hr, hps]
  simp only [updateIfBetter]
  rw [if_neg (by simp only [List.sum_cons, List.sum_nil]; norm_num; nlinarith [he0, he1])]

lemma c2_e0 : escapePhase (α := ℝ) ⟨fun v => v.sum, [-100], [100]⟩ ⟨10, 1/5, 1, 1/2⟩ 0 2
    ⟨[[0], [1]], [0, 1], 1, ⟨[0, 5, -1], [0, 1]⟩⟩ =
    some ⟨[[0], [1]], [0, 1], 1, ⟨[0, 5, -1], [1]⟩⟩ := by
  simp only [escapePhase]
  rw [show rand1 (⟨[0, 5, -1], [0, 1]⟩ : Rng ℝ) = some (0, ⟨[0, 5, -1], [1]⟩) from rfl]
  norm_num

lemma c2_w0 : wolfStep (⟨Real.sqrt, Real.exp⟩ : EnvOps ℝ) ⟨fun v => v.sum, [-100], [100]⟩
    ⟨10, 1/5, 1, 1/2⟩ 2 0 2 ⟨[[0], [1]], [0, 1], 0, ⟨[0, 5, 0, 5, -1], [0, 1]⟩⟩ =
    some ⟨[[0], [1]], [0, 1], 1, ⟨[0, 5, -1], [1]⟩⟩ := by
  simp only [wolfStep, c2_v0, Option.some_bind, c2_p0, c2_e0]

lemma c2_v1 : visualPhase (α := ℝ) ⟨fun v => v.sum, [-100], [100]⟩ ⟨10, 1/5, 1, 1/2⟩ 1 2
    ⟨[[0], [1]], [0, 1], 1, ⟨[0, 5, -1], [1]⟩⟩ =
    some ⟨[[0], [1]], [0, 1], 1, ⟨[5, -1], [1]⟩⟩ := by
  have hs : searchWithinVisual (α := ℝ) ⟨fun v => v.sum, [-100], [100]⟩ ⟨10, 1/5, 1, 1/2⟩
      [1] 2 ⟨[0, 5, -1], [1]⟩ = some ⟨[5, -1], [1]⟩ := by
    refine searchWithinVisual_succ_feasible (g := [0]) 1 ?_ ?_
    · rfl
    · norm_num [Task.isFeasible]
  simp only [visualPhase]
  rw [show ([[0], [1]] : List (List ℝ)).getD 1 [] = [1] from rfl]
  rw [hs]
  simp only [updateIfBetter]
  rw [if_neg (by norm_num)]

lemma c2_sat1 : satisfiedIndexes (⟨Real.sqrt, Real.exp⟩ : EnvOps ℝ) ⟨10, 1/5, 1, 1/2⟩ 2 1
    ⟨[[0], [1]], [0, 1], 1, ⟨[5, -1], [1]⟩⟩ = [0] := by
  norm_num [satisfiedIndexes, sumSqDiff, List.range_succ, List.filter, Real.sqrt_zero,
    Real.sqrt_one]

lemma c2_p1 : packPhase (⟨Real.sqrt, Real.exp⟩ : EnvOps ℝ) ⟨fun v => v.sum, [-100], [100]⟩
    ⟨10, 1/5, 1, 1/2⟩ 2 1 2 ⟨[[0], [1]], [0, 1], 1, ⟨[5, -1], [1]⟩⟩ =
    some ⟨[[0], [1]], [0, 1], Real.sqrt 2, ⟨[-1], [1]⟩⟩ := by
  have hsq : Real.sqrt 2 ^ 2 = 2 := Real.sq_sqrt (by norm_num)
  have he0 : (0 : ℝ) < Real.exp (-2) := Real.exp_pos _
  have he1 : Real.exp (-2 : ℝ) < 1 := by
    rw [Real.exp_lt_one_iff]
    norm_num
  have hbw : bestSatisfiedWolf (⟨[[0], [1]], [0, 1], 1, ⟨[5, -1], [1]⟩⟩ :
      IterState ℝ) [0] = [0] := by
    norm_num [bestSatisfiedWolf, argmin, List.range_succ]
  have hr : rDistAccum (⟨Real.sqrt, Real.exp⟩ : EnvOps ℝ) [0] [1] 1 = Real.sqrt 2 := by
    norm_num [rDistAccum, List.range_succ]
  have hps : packSample (α := ℝ) ⟨fun v => v.sum, [-100], [100]⟩ ⟨10, 1/5, 1, 1/2⟩ [1] [0]
      (1 * Real.exp (-1 * Real.sqrt 2 ^ 2)) 2 ⟨[5, -1], [1]⟩ =
      some ([1 * (1 - 1 * Real.exp (-1 * Real.sqrt 2 ^ 2)) +
          0 * (1 * Real.exp (-1 * Real.sqrt 2 ^ 2)) + 1 * 5], ⟨[-1], [1]⟩) := by
    refine packSample_succ_feasible (g := 5) 1 ?_ ?_
    · rfl
    · simp only [List.zipWith, List.map]
      norm_num [Task.isFeasible]
      constructor <;> nlinarith [he0, he1]
  simp only [packPhase, c2_sat1]
  rw [if_pos (by norm_num)]
  rw [show (⟨[[0], [1]], [0, 1], 1, ⟨[5, -1], [1]⟩⟩ :
      IterState ℝ).W.getD 1 [] = [1] from rfl]
  rw [hbw, hr, hps]
  simp only [updateIfBetter]
  rw [if_neg (by simp only [List.sum_cons, List.sum_nil]; norm_num; nlinarith [he0, he1])]

lemma c2_s2lt : Real.sqrt 2 < 2 := by
  nlinarith [Real.sq_sqrt (show (0:ℝ) ≤ 2 by norm_num), Real.sqrt_nonneg 2]

lemma c2_s2gt : (1 : ℝ) < Real.sqrt 2 := by
  nlinarith [Real.sq_sqrt (show (0:ℝ) ≤ 2 by norm_num), Real.sqrt_nonneg 2]

lemma c2_esc : escape (α := ℝ) ⟨fun v => v.sum, [-100], [100]⟩ ⟨10, 1/5, 1, 1/2⟩ [1]
    (Real.sqrt 2) 2 ⟨[-1], []⟩ = some ([Real.sqrt 2 - 99], ⟨[], []⟩) := by
  have hdim : Task.dimFeasible (⟨fun v => v.sum, [-100], [100]⟩ : Task ℝ) 0
      ((1 : ℝ) + 1 * (-1 *
        (Task.bRange (⟨fun v => v.sum, [-100], [100]⟩ : Task ℝ) 0 / 2 - Real.sqrt 2))) =
      true := by
    norm_num [Task.dimFeasible, Task.bRange]
    constructor <;> nlinarith [Real.sqrt_nonneg 2, c2_s2lt]
  have hd : escapeDim (α := ℝ) ⟨fun v => v.sum, [-100], [100]⟩ ⟨10, 1/5, 1, 1/2⟩
      (Real.sqrt 2) 1 0 2 ⟨[-1], []⟩ =
      some (1 + 1 * (-1 *
        (Task.bRange (⟨fun v => v.sum, [-100], [100]⟩ : Task ℝ) 0 / 2 - Real.sqrt 2)),
        ⟨[], []⟩) :=
    escapeDim_succ_feasible (g := -1) 1 rfl hdim
  simp only [escape, escapeGo, hd]
  norm_num [Task.bRange]
  ring

lemma c2_e1 : escapePhase (α := ℝ) ⟨fun v => v.sum, [-100], [100]⟩ ⟨10, 1/5, 1, 1/2⟩ 1 2
    ⟨[[0], [1]], [0, 1], Real.sqrt 2, ⟨[-1], [1]⟩⟩ =
    some ⟨[[0], [Real.sqrt 2 - 99]], [0, Real.sqrt 2 - 99], Real.sqrt 2, ⟨[], []⟩⟩ := by
  simp only [escapePhase]
  rw [show rand1 (⟨[-1], [1]⟩ : Rng ℝ) = some (1, ⟨[-1], []⟩) from rfl]
  dsimp only
  rw [if_pos (by norm_num : (1 : ℝ) > 1 / 2)]
  rw [show ([[0], [1]] : List (List ℝ)).getD 1 [] = [1] from rfl]
  rw [c2_esc]
  simp only [updateIfBetter]
  rw [if_pos (by simp only [List.sum_cons, List.sum_nil]; norm_num; nlinarith [c2_s2lt])]
  simp [List.set]

lemma c2_w1 : wolfStep (⟨Real.sqrt, Real.exp⟩ : EnvOps ℝ) ⟨fun v => v.sum, [-100], [100]⟩
    ⟨10, 1/5, 1, 1/2⟩ 2 1 2 ⟨[[0], [1]], [0, 1], 1, ⟨[0, 5, -1], [1]⟩⟩ =
    some ⟨[[0], [Real.sqrt 2 - 99]], [0, Real.sqrt 2 - 99], Real.sqrt 2, ⟨[], []⟩⟩ := by
  simp only [wolfStep, c2_v1, Option.some_bind, c2_p1, c2_e1]

lemma c2_argmin : argmin ([0, Real.sqrt 2 - 99] : List ℝ) = 1 := by
  have h1 : ([0, Real.sqrt 2 - 99] : List ℝ).getD 1 0 < ([0, Real.sqrt 2 - 99] : List ℝ).getD 0 0 := by
    simp
    nlinarith [c2_s2lt]
  simp [argmin, List.range_succ, h1]
  nlinarith [c2_s2lt]

lemma c2_run : runIteration (⟨Real.sqrt, Real.exp⟩ : EnvOps ℝ)
    ⟨fun v => v.sum, [-100], [100]⟩ ⟨10, 1/5, 1, 1/2⟩ 2 2 [[0], [1]] [0, 1] [] (-1000)
    ⟨[0, 5, 0, 5, -1], [0, 1]⟩ =
    some ([[0], [Real.sqrt 2 - 99]], [0, Real.sqrt 2 - 99], [], -1000, ⟨[], []⟩) := by
  simp only [runIteration]
  rw [show List.range ([[0], [1]] : List (List ℝ)).length = [0, 1] from rfl]
  simp only [runIterationAux, c2_w0, Option.some_bind, c2_w1]
  simp only [Option.map_some', finalizeBest, c2_argmin]
  rw [if_neg (by simp; nlinarith [Real.sqrt_nonneg 2])]

lemma c2_p0r : packPhaseReset (⟨Real.sqrt, Real.exp⟩ : EnvOps ℝ)
    ⟨fun v => v.sum, [-100], [100]⟩ ⟨10, 1/5, 1, 1/2⟩ 2 0 2
    ⟨[[0], [1]], [0, 1], 0, ⟨[5, 0, 5, -1], [0, 1]⟩⟩ =
    some ⟨[[0], [1]], [0, 1], 1, ⟨[0, 5, -1], [0, 1]⟩⟩ := by
  have he0 : (0 : ℝ) < Real.exp (-1) := Real.exp_pos _
  have he1 : Real.exp (-1 : ℝ) < 1 := by
    rw [Real.exp_lt_one_iff]
    norm_num
  have hbw : bestSatisfiedWolf (⟨[[0], [1]], [0, 1], 0, ⟨[5, 0, 5, -1], [0, 1]⟩⟩ :
      IterState ℝ) [1] = [1] := by
    norm_num [bestSatisfiedWolf, argmin, List.range_succ]
  have hr : rDistAccum (⟨Real.sqrt, Real.exp⟩ : EnvOps ℝ) [1] [0] 0 = 1 := by
    norm_num [rDistAccum, List.range_succ, Real.sqrt_one]
  have hps : packSample (α := ℝ) ⟨fun v => v.sum, [-100], [100]⟩ ⟨10, 1/5, 1, 1/2⟩ [0] [1]
      (1 * Real.exp (-1 * 1 ^ 2)) 2 ⟨[5, 0, 5, -1], [0, 1]⟩ =
      some ([0 * (1 - 1 * Real.exp (-1 * 1 ^ 2)) + 1 * (1 * Real.exp (-1 * 1 ^ 2)) + 1 * 5],
        ⟨[0, 5, -1], [0, 1]⟩) := by
    refine packSample_succ_feasible (g := 5) 1 ?_ ?_
    · rfl
    · simp only [List.zipWith, List.map]
      norm_num [Task.isFeasible]
      constructor <;> nlinarith [he0, he1]
  simp only [packPhaseReset, c2_sat0]
  rw [if_pos (by norm_num)]
  rw [show (⟨[[0], [1]], [0, 1], 0, ⟨[5, 0, 5, -1], [0, 1]⟩⟩ :
      IterState ℝ).W.getD 0 [] = [0] from rfl]
  rw [hbw, hr, hps]
  simp only [updateIfBetter]
  rw [if_neg (by simp only [List.sum_cons, List.sum_nil]; norm_num; nlinarith [he0, he1])]

lemma c2_p1r : packPhaseReset (⟨Real.sqrt, Real.exp⟩ : EnvOps ℝ)
    ⟨fun v => v.sum, [-100], [100]⟩ ⟨10, 1/5, 1, 1/2⟩ 2 1 2
    ⟨[[0], [1]], [0, 1], 1, ⟨[5, -1], [1]⟩⟩ =
    some ⟨[[0], [1]], [0, 1], 1, ⟨[-1], [1]⟩⟩ := by
  have he0 : (0 : ℝ) < Real.exp (-1) := Real.exp_pos _
  have he1 : Real.exp (-1 : ℝ) < 1 := by
    rw [Real.exp_lt_one_iff]
    norm_num
  have hbw : bestSatisfiedWolf (⟨[[0], [1]], [0, 1], 1, ⟨[5, -1], [1]⟩⟩ :
      IterState ℝ) [0] = [0] := by
    norm_num [bestSatisfiedWolf, argmin, List.range_succ]
  have hr : rDistAccum (⟨Real.sqrt, Real.exp⟩ : EnvOps ℝ) [0] [1] 0 = 1 := by
    norm_num [rDistAccum, List.range_succ, Real.sqrt_one]
  have hps : packSample (α := ℝ) ⟨fun v => v.sum, [-100], [100]⟩ ⟨10, 1/5, 1, 1/2⟩ [1] [0]
      (1 * Real.exp (-1 * 1 ^ 2)) 2 ⟨[5, -1], [1]⟩ =
      some ([1 * (1 - 1 * Real.exp (-1 * 1 ^ 2)) + 0 * (1 * Real.exp (-1 * 1 ^ 2)) + 1 * 5],
        ⟨[-1], [1]⟩) := by
    refine packSample_succ_feasible (g := 5) 1 ?_ ?_
    · rfl
    · simp only [List.zipWith, List.map]
      norm_num [Task.isFeasible]
      constructor <;> nlinarith [he0, he1]
  simp only [packPhaseReset, c2_sat1]
  rw [if_pos (by norm_num)]
  rw [show (⟨[[0], [1]], [0, 1], 1, ⟨[5, -1], [1]⟩⟩ :
      IterState ℝ).W.getD 1 [] = [1] from rfl]
  rw [hbw, hr, hps]
  simp only [updateIfBetter]
  rw [if_neg (by simp only [List.sum_cons, List.sum_nil]; norm_num; nlinarith [he0, he1])]

lemma c2_escr : escape (α := ℝ) ⟨fun v => v.sum, [-100], [100]⟩ ⟨10, 1/5, 1, 1/2⟩ [1]
    1 2 ⟨[-1], []⟩ = some ([-98], ⟨[], []⟩) := by
  have hdim : Task.dimFeasible (⟨fun v => v.sum, [-100], [100]⟩ : Task ℝ) 0
      ((1 : ℝ) + 1 * (-1 *
        (Task.bRange (⟨fun v => v.sum, [-100], [100]⟩ : Task ℝ) 0 / 2 - 1))) = true := by
    norm_num [Task.dimFeasible, Task.bRange]
  have hd : escapeDim (α := ℝ) ⟨fun v => v.sum, [-100], [100]⟩ ⟨10, 1/5, 1, 1/2⟩
      1 1 0 2 ⟨[-1], []⟩ =
      some (1 + 1 * (-1 *
        (Task.bRange (⟨fun v => v.sum, [-100], [100]⟩ : Task ℝ) 0 / 2 - 1)), ⟨[], []⟩) :=
    escapeDim_succ_feasible (g := -1) 1 rfl hdim
  simp only [escape, escapeGo, hd]
  norm_num [Task.bRange]

lemma c2_e1r : escapePhase (α := ℝ) ⟨fun v => v.sum, [-100], [100]⟩ ⟨10, 1/5, 1, 1/2⟩ 1 2
    ⟨[[0], [1]], [0, 1], 1, ⟨[-1], [1]⟩⟩ =
    some ⟨[[0], [-98]], [0, -98], 1, ⟨[], []⟩⟩ := by
  simp only [escapePhase]
  rw [show rand1 (⟨[-1], [1]⟩ : Rng ℝ) = some (1, ⟨[-1], []⟩) from rfl]
  dsimp only
  rw [if_pos (by norm_num : (1 : ℝ) > 1 / 2)]
  rw [show ([[0], [1]] : List (List ℝ)).getD 1 [] = [1] from rfl]
  rw [c2_escr]
  simp only [updateIfBetter]
  rw [if_pos (by simp only [List.sum_cons, List.sum_nil]; norm_num)]
  simp [List.set]

lemma c2_w0r : wolfStepReset (⟨Real.sqrt, Real.exp⟩ : EnvOps ℝ)
    ⟨fun v => v.sum, [-100], [100]⟩ ⟨10, 1/5, 1, 1/2⟩ 2 0 2
    ⟨[[0], [1]], [0, 1], 0, ⟨[0, 5, 0, 5, -1], [0, 1]⟩⟩ =
    some ⟨[[0], [1]], [0, 1], 1, ⟨[0, 5, -1], [1]⟩⟩ := by
  simp only [wolfStepReset, c2_v0, Option.some_bind, c2_p0r, c2_e0]

lemma c2_w1r : wolfStepReset (⟨Real.sqrt, Real.exp⟩ : EnvOps ℝ)
    ⟨fun v => v.sum, [-100], [100]⟩ ⟨10, 1/5, 1, 1/2⟩ 2 1 2
    ⟨[[0], [1]], [0, 1], 1, ⟨[0, 5, -1], [1]⟩⟩ =
    some ⟨[[0], [-98]], [0, -98], 1, ⟨[], []⟩⟩ := by
  simp only [wolfStepReset, c2_v1, Option.some_bind, c2_p1r, c2_e1r]

lemma c2_argminr : argmin ([0, -98] : List ℝ) = 1 := by
  have h1 : ([0, -98] : List ℝ).getD 1 0 < ([0, -98] : List ℝ).getD 0 0 := by norm_num
  simp [argmin, List.range_succ, h1]

lemma c2_runr : runIterationReset (⟨Real.sqrt, Real.exp⟩ : EnvOps ℝ)
    ⟨fun v => v.sum, [-100], [100]⟩ ⟨10, 1/5, 1, 1/2⟩ 2 2 [[0], [1]] [0, 1] [] (-1000)
    ⟨[0, 5, 0, 5, -1], [0, 1]⟩ =
    some ([[0], [-98]], [0, -98], [], -1000, ⟨[], []⟩) := by
  simp only [runIterationReset]
  rw [show List.range ([[0], [1]] : List (List ℝ)).length = [0, 1] from rfl]
  simp only [runIterationResetAux, c2_w0r, Option.some_bind, c2_w1r]
  simp only [Option.map_some', finalizeBest, c2_argminr]
  rw [if_neg (by norm_num)]

/-- Counterexample to C2: on a concrete two-wolf input the
accumulated value left by wolf 0 (rDist = 1) feeds wolf 1's
pack-attraction accumulation, giving sqrt((0-1)^2 + 1) = sqrt 2 and an
escape step landing at sqrt 2 - 99, whereas the claim's
reset-per-computation semantics gives sqrt((0-1)^2 + 0) = 1 and an
escape step landing at -98; the two runs return different
populations. -/
theorem rDist_reset_counterexample :
    runIteration (⟨Real.sqrt, Real.exp⟩ : EnvOps ℝ) ⟨fun v => v.sum, [-100], [100]⟩
        ⟨10, 1/5, 1, 1/2⟩ 2 2 [[0], [1]] [0, 1] [] (-1000) ⟨[0, 5, 0, 5, -1], [0, 1]⟩ =
      some ([[0], [Real.sqrt 2 - 99]], [0, Real.sqrt 2 - 99], [], -1000, ⟨[], []⟩) ∧
      runIterationReset (⟨Real.sqrt, Real.exp⟩ : EnvOps ℝ) ⟨fun v => v.sum, [-100], [100]⟩
        ⟨10, 1/5, 1, 1/2⟩ 2 2 [[0], [1]] [0, 1] [] (-1000) ⟨[0, 5, 0, 5, -1], [0, 1]⟩ =
      some ([[0], [-98]], [0, -98], [], -1000, ⟨[], []⟩) ∧
      (Real.sqrt 2 - 99 : ℝ) ≠ -98 := by
  refine ⟨c2_run, c2_runr, fun h => ?_⟩
  have h2 : Real.sqrt 2 = 1 := by linarith
  nlinarith [c2_s2gt]

end WSA
